import Mathlib

/-!
Verification development for the garment collage layout engine
(`src/main.py` of the image-generator module).

The engine is embedded shallowly:

* A PIL image is modelled by `Img`: a pixel mode, the optional `P`-mode
  transparency flag from `img.info`, the palette, and the pixel grid as a
  list of rows.  Every pixel is stored as a quadruple of channel values;
  which channels are meaningful depends on the mode (`RGB` uses `c1..c3`,
  `RGBA` additionally the alpha channel `c4`, `LA` uses `c1` and `c4`,
  `P` and `L` use `c1`).
* Python exceptions are modelled by `Except PyErr`: `max()` on an empty
  sequence, `Image.new` on a negative size and `Image.crop` on an inverted
  box raise `ValueError`; an out-of-range `split()[i]` raises `IndexError`.
  `fastapi` wraps uncaught exceptions of a route into a generic
  HTTP 500 response, modelled by `HandlerOut.httpError 500`.
* The composers (`merge_group`, `merge_images_for_outfit`,
  `merge_images_for_capsule`) paint onto a fresh background canvas; the
  embedding records the geometry they compute (canvas dimensions, the
  paste position of every item in source order, the tracked `real_width`
  and the final crop box) instead of replaying the pixel copies, which no
  property below depends on.  The normalizer `process_images`, whose
  per-pixel behaviour is claimed, is embedded down to the pixel level,
  including Pillow's `MULDIV255` rounding for the alpha blend.
-/

/-- Pixel channel quadruple; interpretation depends on the image mode. -/
structure Pix where
  c1 : Nat
  c2 : Nat
  c3 : Nat
  c4 : Nat
deriving DecidableEq, Repr

/-- Pixel modes occurring in the engine, mirroring PIL mode strings. -/
inductive Mode where
  | RGB
  | RGBA
  | LA
  | P
  | L
deriving DecidableEq, Repr

/-- Number of bands `img.split()` returns for each mode. -/
def bands : Mode → Nat
  | .RGB => 3
  | .RGBA => 4
  | .LA => 2
  | .P => 1
  | .L => 1

/-- A decoded raster: mode, `P`-mode transparency info, palette and pixel rows. -/
structure Img where
  mode : Mode
  transparency : Bool
  pal : List (Nat × Nat × Nat)
  rows : List (List Pix)
deriving DecidableEq, Repr

def Img.width (img : Img) : Nat := (img.rows.headD []).length

def Img.height (img : Img) : Nat := img.rows.length

def emptyImg : Img := ⟨.RGB, false, [], []⟩

def zeroPix : Pix := ⟨0, 0, 0, 0⟩

/-- Pillow 10 `getbbox(alpha_only=True)` pixel test: on a mode with an alpha
channel a pixel counts when its alpha is non-zero, otherwise when not all of
its channels are zero. -/
def contentPix : Mode → Pix → Bool
  | .RGBA, p => p.c4 != 0
  | .LA, p => p.c4 != 0
  | .RGB, p => !(p.c1 == 0 && p.c2 == 0 && p.c3 == 0)
  | .P, p => p.c1 != 0
  | .L, p => p.c1 != 0

/-- Coordinates `(row, column)` of the content pixels of one row, scanning
columns from `j`. -/
def rowContent (m : Mode) (i j : Nat) : List Pix → List (Nat × Nat)
  | [] => []
  | p :: rest =>
      if contentPix m p then (i, j) :: rowContent m i (j + 1) rest
      else rowContent m i (j + 1) rest

/-- Coordinates of the content pixels of the rows, scanning rows from `i`. -/
def cellsFrom (m : Mode) (i : Nat) : List (List Pix) → List (Nat × Nat)
  | [] => []
  | row :: rest => rowContent m i 0 row ++ cellsFrom m (i + 1) rest

/-- Coordinates of all content pixels of an image, in row-major order. -/
def contentCells (img : Img) : List (Nat × Nat) :=
  cellsFrom img.mode 0 img.rows

def natsMin (x : Nat) (xs : List Nat) : Nat := xs.foldl min x

def natsMax (x : Nat) (xs : List Nat) : Nat := xs.foldl max x

/-- `img.getbbox()`: the box `(left, upper, right, lower)` around the content
pixels, or `none` when there are none. -/
def getbbox (img : Img) : Option (Nat × Nat × Nat × Nat) :=
  match contentCells img with
  | [] => none
  | c :: cs =>
      some (natsMin c.2 (cs.map Prod.snd), natsMin c.1 (cs.map Prod.fst),
            natsMax c.2 (cs.map Prod.snd) + 1, natsMax c.1 (cs.map Prod.fst) + 1)

/-- Rows of `img.crop((l, u, r, lo))`; pixels requested outside the source
grid are padded with zero, as PIL does. -/
def cropRows (rows : List (List Pix)) (l u r lo : Nat) : List (List Pix) :=
  (List.range (lo - u)).map fun di =>
    (List.range (r - l)).map fun dj => (rows.getD (u + di) []).getD (l + dj) zeroPix

/-- `img.crop(box)`: with `box = None` PIL returns a copy of the image. -/
def pilCrop (img : Img) (box : Option (Nat × Nat × Nat × Nat)) : Img :=
  match box with
  | none => img
  | some (l, u, r, lo) => { img with rows := cropRows img.rows l u r lo }

/-- Python exception kinds raised by the engine. -/
inductive PyErr where
  | valueError
  | indexError
deriving DecidableEq, Repr

instance exceptDecEq (ε α : Type) [DecidableEq ε] [DecidableEq α] :
    DecidableEq (Except ε α) := fun x y =>
  match x, y with
  | .ok a, .ok b =>
      if h : a = b then .isTrue (by rw [h]) else .isFalse (by intro hh; cases hh; exact h rfl)
  | .ok _, .error _ => .isFalse Except.noConfusion
  | .error _, .ok _ => .isFalse Except.noConfusion
  | .error e, .error f =>
      if h : e = f then .isTrue (by rw [h]) else .isFalse (by intro hh; cases hh; exact h rfl)

/-- Pillow's `MULDIV255(a, b)` rounding helper used by masked `paste`. -/
def muldiv255 (a b : Nat) : Nat := ((a * b + 128) / 256 + (a * b + 128)) / 256

/-- Masked-paste blend of one channel: source `src` over background `bg`
with mask value `m`. -/
def blend (m bg src : Nat) : Nat := muldiv255 bg (255 - m) + muldiv255 src m

/-- `background.paste(img, mask=img.split()[3])` onto a white RGB canvas of
the same size: every pixel is blended against `(255, 255, 255)` using its
fourth band as the mask. -/
def flattenOnWhite (img : Img) : Img :=
  { mode := .RGB, transparency := false, pal := [],
    rows := img.rows.map fun row => row.map fun p =>
      ⟨blend p.c4 255 p.c1, blend p.c4 255 p.c2, blend p.c4 255 p.c3, 0⟩ }

/-- Per-pixel conversion of `img.convert('RGB')`. -/
def convPixRGB (m : Mode) (pal : List (Nat × Nat × Nat)) (p : Pix) : Pix :=
  match m with
  | .RGB => p
  | .RGBA => ⟨p.c1, p.c2, p.c3, 0⟩
  | .LA => ⟨p.c1, p.c1, p.c1, 0⟩
  | .L => ⟨p.c1, p.c1, p.c1, 0⟩
  | .P =>
      match pal.getD p.c1 (0, 0, 0) with
      | (r, g, b) => ⟨r, g, b, 0⟩

/-- `img.convert('RGB')`. -/
def convertRGB (img : Img) : Img :=
  { mode := .RGB, transparency := false, pal := [],
    rows := img.rows.map fun row => row.map (convPixRGB img.mode img.pal) }

/-- One iteration of the `process_images` loop: crop to `getbbox()`, then
flatten alpha-bearing images onto a white background (which evaluates
`split()[3]` and hence raises `IndexError` on images with fewer than four
bands) or reinterpret the rest as RGB. -/
def processOne (img : Img) : Except PyErr Img :=
  let cropped := pilCrop img (getbbox img)
  if cropped.mode = .RGBA ∨ cropped.mode = .LA ∨
      (cropped.mode = .P ∧ cropped.transparency = true) then
    if 4 ≤ bands cropped.mode then
      .ok (flattenOnWhite cropped)
    else
      .error .indexError
  else
    .ok (convertRGB cropped)

/-- Garment categories of `ClothType`, including the source's spelling
`OUTWEAR`. -/
inductive ClothType where
  | TOP
  | OUTWEAR
  | UNDERWEAR
  | FOOTWEAR
  | ACCESSORY
  | NONE
deriving DecidableEq, Repr

/-- `process_images`: normalize each `(cloth_type, image)` pair in order,
failing fast on the first exception. -/
def processImages : List (ClothType × Img) → Except PyErr (List (ClothType × Img))
  | [] => .ok []
  | (t, img) :: rest =>
      match processOne img with
      | .error e => .error e
      | .ok p =>
          match processImages rest with
          | .error e => .error e
          | .ok ps => .ok ((t, p) :: ps)

/-- Result of `merge_group`: canvas size and the paste position of each
input raster, in input order. -/
structure MergeResult where
  width : Nat
  height : Nat
  pastes : List (Nat × Nat)
deriving DecidableEq, Repr

/-- Paste positions of the `merge_group` loop: horizontal centering against
the canvas width `W`, a vertical cursor advancing by each item's height plus
the spacing. -/
def stackPastes (W s : Nat) : List Img → Nat → List (Nat × Nat)
  | [], _ => []
  | im :: rest, y => ((W - im.width) / 2, y) :: stackPastes W s rest (y + im.height + s)

/-- `merge_group(images, spacing)`: on an empty list `max()` raises
`ValueError`; otherwise the canvas is `max width × (sum of heights +
spacing·(n−1))` and the items are pasted top to bottom. -/
def merge_group (images : List Img) (spacing : Nat) : Except PyErr MergeResult :=
  match images with
  | [] => .error .valueError
  | im :: rest =>
      .ok { width := natsMax im.width (rest.map Img.width),
            height := ((im :: rest).map Img.height).sum + spacing * ((im :: rest).length - 1),
            pastes := stackPastes (natsMax im.width (rest.map Img.width)) spacing (im :: rest) 0 }

/-- Result of `merge_images_for_outfit`: canvas size and the two paste
abscissas computed by the source (`base_x` and `overlay_x`). -/
structure OutfitResult where
  width : Nat
  height : Nat
  baseX : Int
  overlayX : Int
deriving DecidableEq, Repr

/-- `next((img for cloth_type, img in processed if cloth_type == t), None)`. -/
def firstOf (t : ClothType) (ps : List (ClothType × Img)) : Option Img :=
  (ps.filterMap fun p => if p.1 = t then some p.2 else none).head?

/-- All accessory images, in input order. -/
def accessoriesOf (ps : List (ClothType × Img)) : List Img :=
  ps.filterMap fun p => if p.1 = ClothType.ACCESSORY then some p.2 else none

/-- `[img for img in [top_img, underwear_img, footwear_img] if img]`; a PIL
image object is always truthy, so the filter only removes the `None`
entries of absent categories. -/
def baseGroup (ps : List (ClothType × Img)) : List Img :=
  [firstOf .TOP ps, firstOf .UNDERWEAR ps, firstOf .FOOTWEAR ps].filterMap id

/-- `[img for img in [outwear_img] + accessory_imgs if img]`. -/
def overlayGroup (ps : List (ClothType × Img)) : List Img :=
  ([firstOf .OUTWEAR ps].filterMap id) ++ accessoriesOf ps

/-- `merge_images_for_outfit`: normalize the inputs, stack the base group
(first TOP, first UNDERWEAR, first FOOTWEAR) and the overlay group (first
OUTWEAR then every ACCESSORY), then place them side by side.  The source's
`if base_image` / `if overlay_image` guards are dead: `merge_group` has
already raised `ValueError` whenever a group was empty, so the canvas width
unconditionally includes the `spacing` term. -/
def merge_images_for_outfit (images : List (ClothType × Img)) (spacing : Nat) :
    Except PyErr OutfitResult :=
  match processImages images with
  | .error e => .error e
  | .ok ps =>
      match merge_group (baseGroup ps) spacing with
      | .error e => .error e
      | .ok base =>
          match merge_group (overlayGroup ps) spacing with
          | .error e => .error e
          | .ok overlay =>
              .ok { width := base.width + overlay.width + spacing,
                    height := max base.height overlay.height,
                    baseX := (((base.width + overlay.width + spacing : Nat) : Int) -
                      (base.width : Int) - (overlay.width : Int) - (spacing : Int)).fdiv 2,
                    overlayX := (((base.width + overlay.width + spacing : Nat) : Int) -
                      (base.width : Int) - (overlay.width : Int) - (spacing : Int)).fdiv 2 +
                      (base.width : Int) + (spacing : Int) }

/-- Position of a category in `CLOTH_TYPE_ORDER`. -/
def orderIdx : ClothType → Nat
  | .TOP => 0
  | .OUTWEAR => 1
  | .UNDERWEAR => 2
  | .FOOTWEAR => 3
  | .ACCESSORY => 4
  | .NONE => 5

/-- Stable insertion of one garment into a list already sorted by
`orderIdx`, placing it after equal keys as Python's stable sort does. -/
def insertByOrder (x : ClothType × Img) : List (ClothType × Img) → List (ClothType × Img)
  | [] => [x]
  | y :: ys =>
      if orderIdx y.1 ≤ orderIdx x.1 then y :: insertByOrder x ys else x :: y :: ys

/-- `clothes.sort(key=lambda x: CLOTH_TYPE_ORDER.index(x.type))`. -/
def sortClothes (clothes : List (ClothType × Img)) : List (ClothType × Img) :=
  clothes.foldl (fun acc x => insertByOrder x acc) []

/-- Outcome of the `/generate_outfit/` route: a response or an HTTP error. -/
inductive HandlerOut where
  | ok (r : OutfitResult)
  | httpError (code : Nat)
deriving DecidableEq, Repr

/-- The `/generate_outfit/` route: sort the garments by category order,
compose (at the default spacing 10), and turn any exception of the merge
into a generic HTTP 500 response. -/
def generate_outfit (clothes : List (ClothType × Img)) : HandlerOut :=
  match merge_images_for_outfit (sortClothes clothes) 10 with
  | .ok r => .ok r
  | .error _ => .httpError 500

/-- Result of `merge_images_for_capsule`: the pre-trim canvas width, the
canvas height, the tracked `real_width`, the final crop box and the paste
position of every garment in paint order. -/
structure CapsuleResult where
  canvasWidth : Int
  totalHeight : Int
  realWidth : Int
  cropBox : Int × Int × Int × Int
  pastes : List (Int × Int)
deriving DecidableEq, Repr

/-- One category bucket of the capsule loop: the garments of that type in
input order, each cropped to `getbbox(alpha_only=True)`. -/
def bucket (t : ClothType) (clothes : List (ClothType × Img)) : List Img :=
  clothes.filterMap fun c => if c.1 = t then some (pilCrop c.2 (getbbox c.2)) else none

def maxW (l : List Img) : Nat := (l.map Img.width).foldl max 0

def maxH (l : List Img) : Nat := (l.map Img.height).foldl max 0

/-- `unit_width`, the maximum over the per-bucket maximum widths, in the
source's argument order. -/
def unitWidth (clothes : List (ClothType × Img)) : Nat :=
  max (max (max (max (maxW (bucket .TOP clothes))
    (maxW (bucket .UNDERWEAR clothes))) (maxW (bucket .FOOTWEAR clothes)))
    (maxW (bucket .OUTWEAR clothes))) (maxW (bucket .ACCESSORY clothes))

/-- `unit_height`, the maximum over the per-bucket maximum heights, in the
source's argument order. -/
def unitHeight (clothes : List (ClothType × Img)) : Nat :=
  max (max (max (max (maxH (bucket .UNDERWEAR clothes))
    (maxH (bucket .OUTWEAR clothes))) (maxH (bucket .FOOTWEAR clothes)))
    (maxH (bucket .ACCESSORY clothes))) (maxH (bucket .TOP clothes))

/-- One placement loop of the capsule: each item is pasted at the cursor
plus its centering offset inside a `unit_width` cell, and the cursor then
advances by `spacing + adv item` (`adv` is the unit width for the tops
loop and the item's own width for every other loop). -/
def bandLoop (uw s : Nat) (adv : Img → Nat) (y : Int) :
    List Img → Int → List (Int × Int)
  | [], _ => []
  | im :: rest, x =>
      (x + (((uw - im.width) / 2 : Nat) : Int), y) :: bandLoop uw s adv y rest (x + (s : Int) + (adv im : Int))

/-- Final cursor position of a placement loop. -/
def bandEnd (s : Nat) (adv : Img → Nat) (l : List Img) (x : Int) : Int :=
  l.foldl (fun a im => a + (s : Int) + (adv im : Int)) x

/-- `merge_images_for_capsule` on the flattened garment list of all outfits
(decoding is modelled as already done).  Mirrors the source: bucket per
category with a `getbbox` crop, compute the unit cell and the conservative
canvas size (`ValueError` from `Image.new` if it is negative), paint band A
(tops advancing by `unit_width`, then outerwear advancing by its own width),
the optional accessory band under the outerwear start, then underwear and
footwear bands, while `real_width` tracks unit-width cells; finally crop to
`(0, 0, real_width, total_height)` (`ValueError` if `real_width` is
negative).  The source wraps any such exception into an HTTP 500. -/
def merge_images_for_capsule (clothes : List (ClothType × Img)) (s : Nat) :
    Except PyErr CapsuleResult :=
  let tops := bucket .TOP clothes
  let underwears := bucket .UNDERWEAR clothes
  let footwears := bucket .FOOTWEAR clothes
  let outwears := bucket .OUTWEAR clothes
  let accessories := bucket .ACCESSORY clothes
  let uw := unitWidth clothes
  let uh := unitHeight clothes
  let m := max outwears.length accessories.length
  let totalWidth : Int :=
    ((tops.length : Int) - 1) * (s : Int) + (tops.length : Int) * (uw : Int) +
      (((m : Int) - 1) * (s : Int) + (m : Int) * (uw : Int))
  let totalHeight : Int := 2 * (s : Int) + 3 * (uh : Int)
  if totalWidth < 0 then .error .valueError else
  let topP := bandLoop uw s (fun _ => uw) 0 tops 0
  let xT : Int := bandEnd s (fun _ => uw) tops 0
  let realT : Int := tops.foldl (fun a _ => a + (s : Int) + (uw : Int)) (-(s : Int))
  let abP : List (Int × Int) :=
    if outwears = [] then
      if accessories = [] then [] else bandLoop uw s Img.width 0 accessories xT
    else
      if accessories = [] then bandLoop uw s Img.width 0 outwears xT
      else
        bandLoop uw s Img.width 0 outwears xT ++
          bandLoop uw s Img.width ((s : Int) + (uh : Int)) accessories xT
  let yAB : Int := if outwears = [] then 0 else
    if accessories = [] then 0 else (s : Int) + (uh : Int)
  let realW : Int :=
    if outwears = [] then
      if accessories = [] then realT
      else accessories.foldl (fun a _ => a + (s : Int) + (uw : Int)) realT
    else realT + (m : Int) * (uw : Int) + ((m : Int) - 1) * (s : Int)
  let yU : Int := yAB + (s : Int) + (uh : Int)
  let uP := bandLoop uw s Img.width yU underwears 0
  let yF : Int := yU + (s : Int) + (uh : Int)
  let fP := bandLoop uw s Img.width yF footwears 0
  if realW < 0 then .error .valueError else
  .ok { canvasWidth := totalWidth, totalHeight := totalHeight, realWidth := realW,
        cropBox := (0, 0, realW, totalHeight),
        pastes := topP ++ abP ++ uP ++ fP }

/-- Projection used to state evaluation facts about the capsule pastes. -/
def capsulePastes (e : Except PyErr CapsuleResult) : Option (List (Int × Int)) :=
  match e with
  | .ok r => some r.pastes
  | .error _ => none

/-- Projection used to state evaluation facts about the outfit canvas width. -/
def outfitWidth (e : Except PyErr OutfitResult) : Option Nat :=
  match e with
  | .ok r => some r.width
  | .error _ => none

/-- Cropped width of a raster after the `getbbox` crop of normalization. -/
def croppedW (img : Img) : Nat := (pilCrop img (getbbox img)).width

/-- Cropped height of a raster after the `getbbox` crop of normalization. -/
def croppedH (img : Img) : Nat := (pilCrop img (getbbox img)).height

/-- An opaque dark-grey RGB content pixel. -/
def pixQ : Pix := ⟨9, 9, 9, 0⟩

/-- A white RGB pixel. -/
def whitePix : Pix := ⟨255, 255, 255, 0⟩

/-- A fully opaque RGBA pixel. -/
def pixOp : Pix := ⟨5, 5, 5, 255⟩

/-- A fully transparent RGBA pixel carrying colour data. -/
def pixTr : Pix := ⟨5, 5, 5, 0⟩

/-- Concrete 1×1 RGB raster. -/
def wg1 : Img := ⟨.RGB, false, [], [[pixQ]]⟩

/-- Concrete 2×1 RGB raster. -/
def wg2 : Img := ⟨.RGB, false, [], [[pixQ, pixQ]]⟩

/-- Concrete 3×1 RGB raster. -/
def wg3 : Img := ⟨.RGB, false, [], [[pixQ, pixQ, pixQ]]⟩

/-- Concrete 5×1 RGB raster. -/
def wg5 : Img := ⟨.RGB, false, [], [[pixQ, pixQ, pixQ, pixQ, pixQ]]⟩

/-- Concrete 2×2 RGB raster with content in every pixel. -/
def wgSq : Img := ⟨.RGB, false, [], [[pixQ, whitePix], [whitePix, pixQ]]⟩

/-- Opaque RGB raster whose leftmost pixel is black: tightly cropped in the
alpha sense, yet `getbbox()` trims the black column. -/
def imgBW : Img := ⟨.RGB, false, [], [[zeroPix, whitePix]]⟩

/-- The 1×1 white raster `process_images` produces from `imgBW`. -/
def imgW1 : Img := ⟨.RGB, false, [], [[whitePix]]⟩

/-- Fully transparent 2×2 RGBA raster. -/
def imgTr2 : Img :=
  ⟨.RGBA, false, [], [[pixTr, pixTr], [pixTr, pixTr]]⟩

/-- Fully transparent 1×1 RGBA raster. -/
def imgTr1 : Img := ⟨.RGBA, false, [], [[⟨1, 2, 3, 0⟩]]⟩

/-- Concrete 3×1 RGBA raster, opaque everywhere. -/
def aTop3 : Img := ⟨.RGBA, false, [], [[pixOp, pixOp, pixOp]]⟩

/-- Concrete 3×1 RGBA raster with a single opaque pixel: same raw size as
`aTop3`, different alpha content. -/
def bTop3 : Img := ⟨.RGBA, false, [], [[pixOp, pixTr, pixTr]]⟩

/-- Concrete 2×1 RGBA raster, opaque everywhere. -/
def rgbaOp2 : Img := ⟨.RGBA, false, [], [[pixOp, pixOp]]⟩

/-- Concrete 1×1 RGBA raster, opaque. -/
def rgba1 : Img := ⟨.RGBA, false, [], [[pixOp]]⟩

/-- Concrete 1×1 LA raster. -/
def laImg1 : Img := ⟨.LA, false, [], [[⟨7, 0, 0, 9⟩]]⟩

/-- The capsule result for one 2×1 TOP and one 2×1 OUTWEAR at spacing 1:
canvas 4×5, real width 4, crop box `(0, 0, 4, 5)`, pastes at `(0, 0)` and
`(3, 0)`. -/
def capRw : CapsuleResult := ⟨4, 5, 4, (0, 0, 4, 5), [(0, 0), (3, 0)]⟩

/-! ## Helper lemmas -/

theorem natsMax_cons (a b : Nat) (l : List Nat) :
    natsMax a (b :: l) = natsMax (max a b) l := rfl

theorem le_natsMax_self (a : Nat) (l : List Nat) : a ≤ natsMax a l := by
  induction l generalizing a with
  | nil => exact Nat.le_refl a
  | cons b l ih =>
      rw [natsMax_cons]
      exact Nat.le_trans (le_max_left a b) (ih (max a b))

theorem le_natsMax_of_mem {x : Nat} {l : List Nat} (a : Nat) (hx : x ∈ l) :
    x ≤ natsMax a l := by
  induction l generalizing a with
  | nil => cases hx
  | cons b l ih =>
      rw [natsMax_cons]
      rcases List.mem_cons.mp hx with h | h
      · subst h
        exact Nat.le_trans (le_max_right a x) (le_natsMax_self _ l)
      · exact ih (max a b) h

theorem natsMax_eq_or_mem (a : Nat) (l : List Nat) :
    natsMax a l = a ∨ natsMax a l ∈ l := by
  induction l generalizing a with
  | nil => exact Or.inl rfl
  | cons b l ih =>
      rw [natsMax_cons]
      rcases ih (max a b) with h | h
      · rcases max_choice a b with hab | hab
        · left
          rw [h, hab]
        · right
          rw [h, hab]
          exact List.mem_cons_self b l
      · exact Or.inr (List.mem_cons_of_mem b h)

theorem stackPastes_length (W s : Nat) (l : List Img) (y : Nat) :
    (stackPastes W s l y).length = l.length := by
  induction l generalizing y with
  | nil => rfl
  | cons im rest ih => simp [stackPastes, ih]

theorem stackPastes_get? (W s : Nat) (l : List Img) (y i : Nat) (hi : i < l.length) :
    (stackPastes W s l y).get? i =
      some ((W - (l.getD i emptyImg).width) / 2,
        y + ((((l.take i).map Img.height).sum + s * i))) := by
  induction l generalizing y i with
  | nil => cases hi
  | cons im rest ih =>
      cases i with
      | zero => simp [stackPastes]
      | succ i =>
          have hi' : i < rest.length := Nat.lt_of_succ_lt_succ hi
          rw [stackPastes, List.get?_cons_succ, ih (y + im.height + s) i hi']
          have : y + im.height + s + (((rest.take i).map Img.height).sum + s * i) =
              y + ((((im :: rest).take (i + 1)).map Img.height).sum + s * (i + 1)) := by
            simp [List.take_cons, Nat.mul_succ]
            omega
          rw [this]
          rfl

/-! ## C1: the stack composer on non-empty input -/

/-- C1.  For every non-empty list of rasters and spacing `s`, `merge_group`
returns a canvas whose width is the maximum input width and whose height is
the sum of the input heights plus `s` times `(n − 1)`; item `i` is pasted at
`x = (W − w_i) / 2` (integer division) and at the vertical position obtained
by stacking the previous items top to bottom with exactly `s` pixels between
adjacent items. -/
theorem merge_group_spec (images : List Img) (spacing : Nat) (hne : images ≠ []) :
    ∃ r, merge_group images spacing = .ok r ∧
      (∀ im ∈ images, im.width ≤ r.width) ∧
      (∃ im ∈ images, r.width = im.width) ∧
      r.height = (images.map Img.height).sum + spacing * (images.length - 1) ∧
      r.pastes.length = images.length ∧
      ∀ i, i < images.length →
        r.pastes.get? i = some ((r.width - (images.getD i emptyImg).width) / 2,
          ((images.take i).map Img.height).sum + spacing * i) := by
  match images with
  | [] => exact absurd rfl hne
  | im :: rest =>
      refine ⟨_, rfl, ?_, ?_, rfl, ?_, ?_⟩
      · intro im' him'
        rcases List.mem_cons.mp him' with h | h
        · subst h
          exact le_natsMax_self _ _
        · exact le_natsMax_of_mem _ (List.mem_map_of_mem Img.width h)
      · rcases natsMax_eq_or_mem im.width (rest.map Img.width) with h | h
        · exact ⟨im, List.mem_cons_self _ _, h⟩
        · rcases List.mem_map.mp h with ⟨im', him', heq⟩
          exact ⟨im', List.mem_cons_of_mem _ him', heq.symm⟩
      · exact stackPastes_length _ _ _ _
      · intro i hi
        rw [stackPastes_get? _ _ _ 0 i hi, Nat.zero_add]

/-- Witness for C1 at a concrete two-image stack with spacing 2. -/
theorem merge_group_spec_witness :
    ∃ r, merge_group [wg2, wg1] 2 = .ok r ∧
      (∀ im ∈ [wg2, wg1], im.width ≤ r.width) ∧
      (∃ im ∈ [wg2, wg1], r.width = im.width) ∧
      r.height = ([wg2, wg1].map Img.height).sum + 2 * ([wg2, wg1].length - 1) ∧
      r.pastes.length = [wg2, wg1].length ∧
      ∀ i, i < [wg2, wg1].length →
        r.pastes.get? i = some ((r.width - ([wg2, wg1].getD i emptyImg).width) / 2,
          (([wg2, wg1].take i).map Img.height).sum + 2 * i) :=
  merge_group_spec [wg2, wg1] 2 (by decide)

/-! ## C7: the stack composer on empty input -/

/-- C7 counterexample.  `merge_group([])` does not return a zero-size
raster: `max()` over the empty width sequence raises `ValueError`, so no
raster is produced at all. -/
theorem merge_group_empty_cex : merge_group [] 10 = .error PyErr.valueError := rfl

/-- C7 amended.  Applied to the empty list of rasters, the stack composer
raises `ValueError` (from `max()` on an empty sequence) for every spacing,
instead of returning a zero-size raster; consequently the callers' absent
checks never see an "absent" value. -/
theorem merge_group_empty_raises (spacing : Nat) :
    merge_group [] spacing = .error PyErr.valueError := rfl

/-! ## Crop bookkeeping helpers -/

theorem pilCrop_mode (img : Img) (box : Option (Nat × Nat × Nat × Nat)) :
    (pilCrop img box).mode = img.mode := by
  match box with
  | none => rfl
  | some (l, u, r, lo) => rfl

theorem pilCrop_transparency (img : Img) (box : Option (Nat × Nat × Nat × Nat)) :
    (pilCrop img box).transparency = img.transparency := by
  match box with
  | none => rfl
  | some (l, u, r, lo) => rfl

/-! ## C10: the flattening branch and the band count -/

/-- C10.  The flattening branch of the normalizer evaluates `split()[3]`;
for an `LA` raster (two bands) or a `P` raster with a transparency entry
(one band) that index is past the band count, so normalization raises
`IndexError` instead of producing the flattened raster; for a four-band
`RGBA` raster the branch succeeds. -/
theorem split_index_only_rgba (img : Img) :
    ((img.mode = .LA ∨ (img.mode = .P ∧ img.transparency = true)) →
      processOne img = .error PyErr.indexError) ∧
    (img.mode = .RGBA → ∃ out, processOne img = .ok out) := by
  have hm := pilCrop_mode img (getbbox img)
  have ht := pilCrop_transparency img (getbbox img)
  constructor
  · intro h
    rcases h with h | ⟨h1, h2⟩
    · simp [processOne, hm, ht, h, bands]
    · simp [processOne, hm, ht, h1, h2, bands]
  · intro h
    exact ⟨flattenOnWhite (pilCrop img (getbbox img)),
      by simp [processOne, hm, ht, h, bands]⟩

/-- Witness for C10: a concrete `LA` raster raises `IndexError`, a concrete
`RGBA` raster flattens successfully. -/
theorem split_index_only_rgba_witness :
    processOne laImg1 = .error PyErr.indexError ∧ ∃ out, processOne rgba1 = .ok out :=
  ⟨(split_index_only_rgba laImg1).1 (Or.inl rfl), (split_index_only_rgba rgba1).2 rfl⟩

/-! ## C4: band A cursor advancement -/

/-- C4 evaluation at the failing input.  Capsule with one 5×1 TOP and two
3×1 OUTWEAR items at spacing 10: `unit_width = 5`, so the claimed
`unit.width + spacing` advancement would paint the second outerwear item at
`x = 31`; the code advances by `spacing + item.width` after each outerwear
item and paints it at `x = 29`. -/
theorem capsule_bandA_advance_eval :
    capsulePastes (merge_images_for_capsule
      [(ClothType.TOP, wg5), (ClothType.OUTWEAR, wg3), (ClothType.OUTWEAR, wg3)] 10) =
      some [(0, 0), (16, 0), (29, 0)] := by decide

/-! ## C3 counterexample: real width can exceed the canvas width -/

/-- C3 counterexample.  A capsule with a single 2×1 TOP and spacing 1 has
pre-trim canvas width 1 but tracked `real_width` 2: the tracked width
exceeds the pre-trim canvas width, falsifying the claimed bound. -/
theorem capsule_trim_cex :
    (merge_images_for_capsule [(ClothType.TOP, wg2)] 1).map
      (fun r => decide (r.realWidth ≤ r.canvasWidth)) = .ok false := by decide

/-! ## C5 counterexample: no distinct empty-outfit error -/

/-- C5 counterexample.  On the empty garment list the composition fails
with the generic `ValueError` that `max()` raises inside the stack
composer, and the route maps it to a generic HTTP 500; no distinct
`EmptyOutfitError` exists anywhere in the code. -/
theorem empty_outfit_error_cex :
    merge_images_for_outfit [] 10 = .error PyErr.valueError ∧
      generate_outfit [] = HandlerOut.httpError 500 := by decide

/-! ## C6 counterexample: fully transparent input does not raise -/

/-- C6 counterexample.  Normalizing a fully transparent 2×2 RGBA raster
succeeds (no `EmptyCutoutError` is raised anywhere): `getbbox()` returns
`None`, `crop(None)` copies the whole image, and flattening paints every
pixel with the white background. -/
theorem transparent_no_error_cex :
    processOne imgTr2 =
      .ok ⟨.RGB, false, [], [[whitePix, whitePix], [whitePix, whitePix]]⟩ := by decide

/-! ## C8 counterexample: normalization is not idempotent -/

/-- C8 counterexample.  The opaque RGB raster `[[black, white]]` is tightly
cropped in the alpha sense (every pixel is opaque), yet normalization crops
away its all-black column — `getbbox()` on an RGB image trims zero pixels —
and returns the 1×1 white raster, which differs from the input. -/
theorem normalize_not_idempotent_cex :
    processOne imgBW = .ok imgW1 ∧ imgW1 ≠ imgBW := by decide

/-! ## C9 counterexample: output dimensions depend on pixel content -/

/-- C9 counterexample.  Two one-garment-per-category inputs whose rasters
agree in width and height pairwise (the TOPs are both 3×1 RGBA, the rest
identical) produce outputs of different widths (15 vs 14): the `getbbox`
crop of normalization makes the output dimensions depend on the alpha
content, not only on the raw input dimensions and the spacing. -/
theorem outfit_dims_not_input_dims_cex :
    aTop3.width = bTop3.width ∧ aTop3.height = bTop3.height ∧
    outfitWidth (merge_images_for_outfit
      [(ClothType.TOP, aTop3), (ClothType.OUTWEAR, rgbaOp2), (ClothType.UNDERWEAR, rgbaOp2),
       (ClothType.FOOTWEAR, rgbaOp2), (ClothType.ACCESSORY, rgbaOp2)] 10) = some 15 ∧
    outfitWidth (merge_images_for_outfit
      [(ClothType.TOP, bTop3), (ClothType.OUTWEAR, rgbaOp2), (ClothType.UNDERWEAR, rgbaOp2),
       (ClothType.FOOTWEAR, rgbaOp2), (ClothType.ACCESSORY, rgbaOp2)] 10) = some 14 := by decide

/-! ## C2 counterexample: an absent overlay stack raises -/

/-- C2 counterexample.  A garment list with only a TOP yields a non-empty
base group and an empty overlay group; instead of omitting the spacing term
from the width, the composition raises the stack composer's empty-input
`ValueError` and produces no raster at all. -/
theorem outfit_absent_side_cex :
    merge_images_for_outfit [(ClothType.TOP, wg1)] 10 = .error PyErr.valueError := by decide

/-! ## C2: outfit canvas dimensions -/

theorem merge_group_ok_of_ne (l : List Img) (s : Nat) (h : l ≠ []) :
    ∃ r, merge_group l s = .ok r := by
  match l with
  | [] => exact absurd rfl h
  | im :: rest => exact ⟨_, rfl⟩

/-- C2 amended.  When both the base group and the overlay group are
non-empty, the final canvas width is `base.width + overlay.width + spacing`
and its height is `max(base.height, overlay.height)`.  When either group is
empty, the composition does not omit the spacing term: it raises the stack
composer's empty-input `ValueError` and produces no raster (the source's
`if base_image` / `if overlay_image` guards are dead code). -/
theorem outfit_dims_amended (images : List (ClothType × Img)) (s : Nat)
    (ps : List (ClothType × Img)) (hp : processImages images = .ok ps) :
    ((baseGroup ps ≠ [] ∧ overlayGroup ps ≠ []) →
      ∃ b o r, merge_group (baseGroup ps) s = .ok b ∧
        merge_group (overlayGroup ps) s = .ok o ∧
        merge_images_for_outfit images s = .ok r ∧
        r.width = b.width + o.width + s ∧ r.height = max b.height o.height) ∧
    ((baseGroup ps = [] ∨ overlayGroup ps = []) →
      merge_images_for_outfit images s = .error PyErr.valueError) := by
  constructor
  · rintro ⟨h1, h2⟩
    obtain ⟨b, hb⟩ := merge_group_ok_of_ne _ s h1
    obtain ⟨o, ho⟩ := merge_group_ok_of_ne _ s h2
    have hfull : merge_images_for_outfit images s =
        .ok ⟨b.width + o.width + s, max b.height o.height,
          (((b.width + o.width + s : Nat) : Int) - (b.width : Int) - (o.width : Int) -
            (s : Int)).fdiv 2,
          (((b.width + o.width + s : Nat) : Int) - (b.width : Int) - (o.width : Int) -
            (s : Int)).fdiv 2 + (b.width : Int) + (s : Int)⟩ := by
      simp [merge_images_for_outfit, hp, hb, ho]
    exact ⟨b, o, _, hb, ho, hfull, rfl, rfl⟩
  · rintro (h | h)
    · have hb : merge_group (baseGroup ps) s = .error PyErr.valueError := by rw [h]; rfl
      simp [merge_images_for_outfit, hp, hb]
    · cases hbg : baseGroup ps with
      | nil =>
          have hb : merge_group (baseGroup ps) s = .error PyErr.valueError := by rw [hbg]; rfl
          simp [merge_images_for_outfit, hp, hb]
      | cons x xs =>
          have ho : merge_group (overlayGroup ps) s = .error PyErr.valueError := by rw [h]; rfl
          obtain ⟨b, hb⟩ := merge_group_ok_of_ne (baseGroup ps) s (by rw [hbg]; simp)
          simp [merge_images_for_outfit, hp, hb, ho]

/-- Witness for C2 at a concrete TOP + ACCESSORY input with spacing 3. -/
theorem outfit_dims_amended_witness :
    ((baseGroup [(ClothType.TOP, wg1), (ClothType.ACCESSORY, wg1)] ≠ [] ∧
      overlayGroup [(ClothType.TOP, wg1), (ClothType.ACCESSORY, wg1)] ≠ []) →
      ∃ b o r, merge_group (baseGroup [(ClothType.TOP, wg1), (ClothType.ACCESSORY, wg1)]) 3 = .ok b ∧
        merge_group (overlayGroup [(ClothType.TOP, wg1), (ClothType.ACCESSORY, wg1)]) 3 = .ok o ∧
        merge_images_for_outfit [(ClothType.TOP, wg1), (ClothType.ACCESSORY, wg1)] 3 = .ok r ∧
        r.width = b.width + o.width + 3 ∧ r.height = max b.height o.height) ∧
    ((baseGroup [(ClothType.TOP, wg1), (ClothType.ACCESSORY, wg1)] = [] ∨
      overlayGroup [(ClothType.TOP, wg1), (ClothType.ACCESSORY, wg1)] = []) →
      merge_images_for_outfit [(ClothType.TOP, wg1), (ClothType.ACCESSORY, wg1)] 3 =
        .error PyErr.valueError) :=
  outfit_dims_amended [(ClothType.TOP, wg1), (ClothType.ACCESSORY, wg1)] 3
    [(ClothType.TOP, wg1), (ClothType.ACCESSORY, wg1)] (by decide)

/-! ## C5: failure mode when both stacks are empty -/

/-- C5 amended.  For every garment list that yields an empty base group and
an empty overlay group (in particular the empty list), outfit composition
fails and produces no output raster — but not with a distinct
`EmptyOutfitError`: the failure is the generic `ValueError` that `max()`
raises on the empty base group, and the route reports it as a generic
HTTP 500 merging error. -/
theorem empty_outfit_generic_error (clothes : List (ClothType × Img)) (s : Nat)
    (ps : List (ClothType × Img))
    (hp : processImages (sortClothes clothes) = .ok ps)
    (hb : baseGroup ps = []) (ho : overlayGroup ps = []) :
    merge_images_for_outfit (sortClothes clothes) s = .error PyErr.valueError ∧
      generate_outfit clothes = HandlerOut.httpError 500 := by
  have key : ∀ sp : Nat,
      merge_images_for_outfit (sortClothes clothes) sp = .error PyErr.valueError := by
    intro sp
    have hbm : merge_group (baseGroup ps) sp = .error PyErr.valueError := by rw [hb]; rfl
    simp [merge_images_for_outfit, hp, hbm]
  refine ⟨key s, ?_⟩
  simp [generate_outfit, key 10]

/-- Witness for C5 at the empty garment list with spacing 7. -/
theorem empty_outfit_generic_error_witness :
    merge_images_for_outfit (sortClothes []) 7 = .error PyErr.valueError ∧
      generate_outfit [] = HandlerOut.httpError 500 :=
  empty_outfit_generic_error [] 7 [] rfl rfl rfl

/-! ## C6: fully transparent rasters flatten to the background -/

theorem rowContent_nil_of (m : Mode) (i j : Nat) (row : List Pix)
    (h : ∀ p ∈ row, contentPix m p = false) : rowContent m i j row = [] := by
  induction row generalizing j with
  | nil => rfl
  | cons p rest ih =>
      rw [rowContent, h p (List.mem_cons_self p rest), if_neg (by simp)]
      exact ih (j + 1) fun q hq => h q (List.mem_cons_of_mem p hq)

theorem cellsFrom_nil_of (m : Mode) (i : Nat) (rows : List (List Pix))
    (h : ∀ row ∈ rows, ∀ p ∈ row, contentPix m p = false) : cellsFrom m i rows = [] := by
  induction rows generalizing i with
  | nil => rfl
  | cons row rest ih =>
      rw [cellsFrom, rowContent_nil_of m i 0 row (h row (List.mem_cons_self row rest))]
      exact ih (i + 1) fun row' hr => h row' (List.mem_cons_of_mem row hr)

theorem getbbox_none_of (img : Img)
    (h : ∀ row ∈ img.rows, ∀ p ∈ row, contentPix img.mode p = false) :
    getbbox img = none := by
  have hc : contentCells img = [] := cellsFrom_nil_of img.mode 0 img.rows h
  rw [getbbox, hc]

theorem blend_zero_on_white (src : Nat) : blend 0 255 src = 255 := by
  unfold blend muldiv255
  norm_num

/-- C6 amended.  Normalizing a fully transparent RGBA raster does not fail
and no `EmptyCutoutError` exists: `getbbox()` returns `None` for an empty
bounding box, `crop(None)` copies the whole image, and the flattening
branch paints every pixel with the white background, yielding an
all-background raster of the input's full size. -/
theorem transparent_flattens (img : Img) (hm : img.mode = Mode.RGBA)
    (ha : ∀ row ∈ img.rows, ∀ p ∈ row, p.c4 = 0) :
    processOne img = .ok ⟨.RGB, false, [],
      img.rows.map fun row => row.map fun _ => ⟨255, 255, 255, 0⟩⟩ := by
  have hbb : getbbox img = none := by
    apply getbbox_none_of
    intro row hr p hp
    rw [hm]
    simp [contentPix, ha row hr p hp]
  simp only [processOne, hbb, pilCrop]
  rw [if_pos (Or.inl hm)]
  rw [if_pos (by rw [hm]; exact Nat.le_refl 4)]
  have hrows : (img.rows.map fun row => row.map fun p =>
        (⟨blend p.c4 255 p.c1, blend p.c4 255 p.c2, blend p.c4 255 p.c3, 0⟩ : Pix)) =
      img.rows.map fun row => row.map fun _ => (⟨255, 255, 255, 0⟩ : Pix) := by
    apply List.map_congr_left
    intro row hr
    apply List.map_congr_left
    intro p hp
    rw [ha row hr p hp, blend_zero_on_white, blend_zero_on_white, blend_zero_on_white]
  rw [flattenOnWhite, hrows]

/-- Witness for C6 at a concrete fully transparent 1×1 RGBA raster. -/
theorem transparent_flattens_witness :
    processOne imgTr1 = .ok ⟨.RGB, false, [],
      imgTr1.rows.map fun row => row.map fun _ => ⟨255, 255, 255, 0⟩⟩ :=
  transparent_flattens imgTr1 rfl (by decide)

/-! ## C8: normalization of tightly cropped opaque RGB rasters -/

theorem getD_range_map_self (row : List Pix) (w : Nat) (h : row.length = w) :
    (List.range w).map (fun dj => row.getD dj zeroPix) = row := by
  subst h
  apply List.ext_getElem (by simp)
  intro i h1 h2
  simp [List.getD_eq_getElem?_getD, List.getElem?_eq_getElem h2]

theorem cropRows_full (rows : List (List Pix)) (w : Nat)
    (hrect : ∀ row ∈ rows, row.length = w) :
    cropRows rows 0 0 w rows.length = rows := by
  unfold cropRows
  simp only [Nat.sub_zero, Nat.zero_add]
  apply List.ext_getElem (by simp)
  intro i h1 h2
  simp only [List.getElem_map, List.getElem_range]
  have hi : rows.getD i [] = rows[i] := by
    simp [List.getD_eq_getElem?_getD, List.getElem?_eq_getElem h2]
  rw [hi]
  exact getD_range_map_self _ w (hrect _ (List.getElem_mem h2))

theorem map_convPixRGB_id (row : List Pix) : row.map (convPixRGB Mode.RGB []) = row := by
  induction row with
  | nil => rfl
  | cons p rest ih => simp [convPixRGB, ih]

theorem map_map_convPixRGB_id (rows : List (List Pix)) :
    rows.map (fun row => row.map (convPixRGB Mode.RGB [])) = rows := by
  induction rows with
  | nil => rfl
  | cons row rest ih => simp [map_convPixRGB_id, ih]

/-- C8 amended.  Normalization is a no-op on every opaque RGB raster that
the `getbbox()` crop leaves whole — when the non-black bounding box is the
full image, and also when the raster is entirely black so `getbbox()`
returns `None` and `crop(None)` copies it.  It is not a no-op on every
tightly cropped opaque raster — `getbbox()` on an alpha-less image trims
zero (black) pixels, so opaque rasters with a partial all-black border row
or column are cropped further, and normalize is therefore not idempotent
on outputs that contain black borders. -/
theorem normalize_noop_rgb (img : Img) (hm : img.mode = Mode.RGB)
    (ht : img.transparency = false) (hpal : img.pal = [])
    (hrect : ∀ row ∈ img.rows, row.length = img.width)
    (hbb : getbbox img = some (0, 0, img.width, img.height) ∨ getbbox img = none) :
    processOne img = .ok img := by
  obtain ⟨mo, tr, pa, rws⟩ := img
  simp only [Img.width, Img.height] at hrect hbb
  dsimp only at hm ht hpal
  subst hm
  subst ht
  subst hpal
  rcases hbb with hbb | hbb
  · simp only [processOne, hbb, pilCrop]
    rw [cropRows_full rws _ hrect]
    rw [if_neg (by simp)]
    rw [convertRGB]
    simp only
    rw [map_map_convPixRGB_id]
  · simp only [processOne, hbb, pilCrop]
    rw [if_neg (by simp)]
    rw [convertRGB]
    simp only
    rw [map_map_convPixRGB_id]

/-- Witness for C8 at a concrete 2×2 opaque RGB raster with content in
every pixel (full non-black bounding box). -/
theorem normalize_noop_rgb_witness : processOne wgSq = .ok wgSq :=
  normalize_noop_rgb wgSq rfl rfl rfl (by decide) (Or.inl (by decide))

/-! ## C9: outfit composition on one garment per category -/

theorem flattenOnWhite_width (img : Img) : (flattenOnWhite img).width = img.width := by
  cases h : img.rows <;> simp [flattenOnWhite, Img.width, h]

theorem flattenOnWhite_height (img : Img) : (flattenOnWhite img).height = img.height := by
  simp [flattenOnWhite, Img.height]

theorem convertRGB_width (img : Img) : (convertRGB img).width = img.width := by
  cases h : img.rows <;> simp [convertRGB, Img.width, h]

theorem convertRGB_height (img : Img) : (convertRGB img).height = img.height := by
  simp [convertRGB, Img.height]

/-- Normalization succeeds on every RGB or RGBA raster and returns a raster
with the dimensions of the `getbbox` crop. -/
theorem processOne_dims (img : Img) (h : img.mode = Mode.RGB ∨ img.mode = Mode.RGBA) :
    ∃ q, processOne img = .ok q ∧ q.width = croppedW img ∧ q.height = croppedH img := by
  have hm := pilCrop_mode img (getbbox img)
  have ht := pilCrop_transparency img (getbbox img)
  rcases h with h | h
  · refine ⟨convertRGB (pilCrop img (getbbox img)), ?_, ?_, ?_⟩
    · simp [processOne, hm, ht, h]
    · exact convertRGB_width _
    · exact convertRGB_height _
  · refine ⟨flattenOnWhite (pilCrop img (getbbox img)), ?_, ?_, ?_⟩
    · simp [processOne, hm, ht, h, bands]
    · exact flattenOnWhite_width _
    · exact flattenOnWhite_height _

theorem merge_group_cons_fields (im : Img) (rest : List Img) (s : Nat) :
    ∃ r, merge_group (im :: rest) s = .ok r ∧
      r.width = natsMax im.width (rest.map Img.width) ∧
      r.height = ((im :: rest).map Img.height).sum + s * ((im :: rest).length - 1) :=
  ⟨_, rfl, rfl, rfl⟩

/-- Core shape of a successful outfit composition, shared by the dimension
theorems: with normalization and both stacks succeeding, the result exists
and has width `base + overlay + spacing` and height `max`. -/
theorem outfit_ok_core (images ps : List (ClothType × Img)) (s : Nat)
    (hp : processImages images = .ok ps) (b o : MergeResult)
    (hb : merge_group (baseGroup ps) s = .ok b)
    (ho : merge_group (overlayGroup ps) s = .ok o) :
    ∃ r, merge_images_for_outfit images s = .ok r ∧
      r.width = b.width + o.width + s ∧ r.height = max b.height o.height := by
  have hfull : merge_images_for_outfit images s =
      .ok ⟨b.width + o.width + s, max b.height o.height,
        (((b.width + o.width + s : Nat) : Int) - (b.width : Int) - (o.width : Int) -
          (s : Int)).fdiv 2,
        (((b.width + o.width + s : Nat) : Int) - (b.width : Int) - (o.width : Int) -
          (s : Int)).fdiv 2 + (b.width : Int) + (s : Int)⟩ := by
    simp [merge_images_for_outfit, hp, hb, ho]
  exact ⟨_, hfull, rfl, rfl⟩

/-- C9 amended.  Composing exactly one garment per category never raises
provided every raster has a mode the normalizer handles (RGB or RGBA), and
the output dimensions are a pure function of the `getbbox`-cropped garment
dimensions and the spacing constant — not of the raw input dimensions,
since the crop depends on pixel content. -/
theorem outfit_dims_of_cropped (t o u f a : Img) (s : Nat)
    (ht : t.mode = Mode.RGB ∨ t.mode = Mode.RGBA)
    (ho : o.mode = Mode.RGB ∨ o.mode = Mode.RGBA)
    (hu : u.mode = Mode.RGB ∨ u.mode = Mode.RGBA)
    (hf : f.mode = Mode.RGB ∨ f.mode = Mode.RGBA)
    (ha : a.mode = Mode.RGB ∨ a.mode = Mode.RGBA) :
    ∃ r, merge_images_for_outfit
        [(ClothType.TOP, t), (ClothType.OUTWEAR, o), (ClothType.UNDERWEAR, u),
         (ClothType.FOOTWEAR, f), (ClothType.ACCESSORY, a)] s = .ok r ∧
      r.width = max (max (croppedW t) (croppedW u)) (croppedW f) +
        max (croppedW o) (croppedW a) + s ∧
      r.height = max (croppedH t + croppedH u + croppedH f + 2 * s)
        (croppedH o + croppedH a + s) := by
  obtain ⟨qt, hqt, hwt, hht⟩ := processOne_dims t ht
  obtain ⟨qo, hqo, hwo, hho⟩ := processOne_dims o ho
  obtain ⟨qu, hqu, hwu, hhu⟩ := processOne_dims u hu
  obtain ⟨qf, hqf, hwf, hhf⟩ := processOne_dims f hf
  obtain ⟨qa, hqa, hwa, hha⟩ := processOne_dims a ha
  have hPI : processImages
      [(ClothType.TOP, t), (ClothType.OUTWEAR, o), (ClothType.UNDERWEAR, u),
       (ClothType.FOOTWEAR, f), (ClothType.ACCESSORY, a)] =
      .ok [(ClothType.TOP, qt), (ClothType.OUTWEAR, qo), (ClothType.UNDERWEAR, qu),
           (ClothType.FOOTWEAR, qf), (ClothType.ACCESSORY, qa)] := by
    simp [processImages, hqt, hqo, hqu, hqf, hqa]
  have hbg : baseGroup
      [(ClothType.TOP, qt), (ClothType.OUTWEAR, qo), (ClothType.UNDERWEAR, qu),
       (ClothType.FOOTWEAR, qf), (ClothType.ACCESSORY, qa)] = [qt, qu, qf] := by
    simp [baseGroup, firstOf]
  have hog : overlayGroup
      [(ClothType.TOP, qt), (ClothType.OUTWEAR, qo), (ClothType.UNDERWEAR, qu),
       (ClothType.FOOTWEAR, qf), (ClothType.ACCESSORY, qa)] = [qo, qa] := by
    simp [overlayGroup, firstOf, accessoriesOf]
  obtain ⟨b, hb, hbw, hbh⟩ := merge_group_cons_fields qt [qu, qf] s
  obtain ⟨ov, hov, hovw, hovh⟩ := merge_group_cons_fields qo [qa] s
  rw [← hbg] at hb
  rw [← hog] at hov
  obtain ⟨r, hr, hrw, hrh⟩ := outfit_ok_core _ _ s hPI b ov hb hov
  refine ⟨r, hr, ?_, ?_⟩
  · rw [hrw, hbw, hovw]
    simp only [natsMax, List.map_cons, List.map_nil, List.foldl_cons, List.foldl_nil]
    rw [hwt, hwu, hwf, hwo, hwa]
  · rw [hrh, hbh, hovh]
    simp only [List.map_cons, List.map_nil, List.sum_cons, List.sum_nil, List.length_cons,
      List.length_nil]
    rw [hht, hhu, hhf, hho, hha]
    congr 1 <;> omega

/-- Witness for C9 at concrete one-per-category garments (an RGB 2×1 TOP,
RGB 1×1 OUTWEAR, UNDERWEAR and FOOTWEAR, and an RGBA 1×1 ACCESSORY) with
spacing 4. -/
theorem outfit_dims_of_cropped_witness :
    ∃ r, merge_images_for_outfit
        [(ClothType.TOP, wg2), (ClothType.OUTWEAR, wg1), (ClothType.UNDERWEAR, wg1),
         (ClothType.FOOTWEAR, wg1), (ClothType.ACCESSORY, rgba1)] 4 = .ok r ∧
      r.width = max (max (croppedW wg2) (croppedW wg1)) (croppedW wg1) +
        max (croppedW wg1) (croppedW rgba1) + 4 ∧
      r.height = max (croppedH wg2 + croppedH wg1 + croppedH wg1 + 2 * 4)
        (croppedH wg1 + croppedH rgba1 + 4) :=
  outfit_dims_of_cropped wg2 wg1 wg1 wg1 rgba1 4
    (Or.inl rfl) (Or.inl rfl) (Or.inl rfl) (Or.inl rfl) (Or.inr rfl)

/-! ## C3: capsule trim geometry -/

theorem foldl_add_two {α : Type} (c1 c2 init : Int) (l : List α) :
    l.foldl (fun a _ => a + c1 + c2) init = init + l.length * (c1 + c2) := by
  induction l generalizing init with
  | nil => simp
  | cons x xs ih =>
      rw [List.foldl_cons, ih]
      push_cast [List.length_cons]
      ring

/-- C3 amended.  Whenever the capsule composer returns, it crops the canvas
to `(0, 0, real_width, total_height)` with `total_height = 2·spacing +
3·unit.height`; but the tracked `real_width` equals the pre-trim canvas
width only when the outerwear bucket is non-empty — when outerwear is empty
the `real_width` accounting exceeds the pre-trim canvas width by exactly
`spacing`. -/
theorem capsule_trim_amended (clothes : List (ClothType × Img)) (s : Nat) (r : CapsuleResult)
    (h : merge_images_for_capsule clothes s = .ok r) :
    r.cropBox = (0, 0, r.realWidth, r.totalHeight) ∧
    r.totalHeight = 2 * (s : Int) + 3 * (unitHeight clothes : Int) ∧
    (bucket .OUTWEAR clothes ≠ [] → r.realWidth = r.canvasWidth) ∧
    (bucket .OUTWEAR clothes = [] → r.realWidth = r.canvasWidth + (s : Int)) := by
  simp only [merge_images_for_capsule] at h
  by_cases how : bucket .OUTWEAR clothes = []
  · by_cases hacc : bucket .ACCESSORY clothes = []
    · simp only [how, hacc, List.length_nil, if_true] at h
      simp at h
      split at h
      · simp at h
      split at h
      · simp at h
      rw [Except.ok.injEq] at h
      subst h
      refine ⟨rfl, rfl, fun hcon => absurd how hcon, fun _ => ?_⟩
      simp only [CapsuleResult.realWidth, CapsuleResult.canvasWidth]
      rw [foldl_add_two]
      ring
    · simp only [how, List.length_nil] at h
      simp only [hacc, if_false, ite_false] at h
      simp at h
      split at h
      · simp at h
      split at h
      · simp at h
      rw [Except.ok.injEq] at h
      subst h
      refine ⟨rfl, rfl, fun hcon => absurd how hcon, fun _ => ?_⟩
      simp only [CapsuleResult.realWidth, CapsuleResult.canvasWidth]
      rw [foldl_add_two, foldl_add_two]
      ring
  · simp only [how] at h
    simp at h
    split at h
    · simp at h
    split at h
    · simp at h
    rw [Except.ok.injEq] at h
    subst h
    refine ⟨rfl, rfl, fun _ => ?_, fun hcon => absurd hcon how⟩
    simp only [CapsuleResult.realWidth, CapsuleResult.canvasWidth]
    rw [foldl_add_two]
    ring

/-- Witness for C3 at a concrete capsule with one 2×1 TOP and one 2×1
OUTWEAR at spacing 1 (the outerwear-present case: real width equals canvas
width). -/
theorem capsule_trim_amended_witness :
    capRw.cropBox = (0, 0, capRw.realWidth, capRw.totalHeight) ∧
    capRw.totalHeight = 2 * ((1 : Nat) : Int) +
      3 * (unitHeight [(ClothType.TOP, wg2), (ClothType.OUTWEAR, wg2)] : Int) ∧
    (bucket .OUTWEAR [(ClothType.TOP, wg2), (ClothType.OUTWEAR, wg2)] ≠ [] →
      capRw.realWidth = capRw.canvasWidth) ∧
    (bucket .OUTWEAR [(ClothType.TOP, wg2), (ClothType.OUTWEAR, wg2)] = [] →
      capRw.realWidth = capRw.canvasWidth + ((1 : Nat) : Int)) :=
  capsule_trim_amended [(ClothType.TOP, wg2), (ClothType.OUTWEAR, wg2)] 1 capRw (by decide)
